import Mathlib

/-!
Verification development for the EventSphere pending-registration /
email-verification workflow (`app/core/api/v1/public/controller/auth.py`,
`app/utils/verification/password_reset.py`) and the TTL-bound ephemeral
cache it runs on (Flask-Caching `SimpleCache`).

Conventions of the embedding:
* Time is an explicit `now : Nat` parameter measured in seconds; the cache
  records absolute expiry instants, mirroring `SimpleCache` (an entry whose
  expiry is `0` never expires; otherwise it is visible exactly while
  `now < expiresAt`).
* Cryptographic digests (SHA-256 in `hash_token`, and the salted code hash of
  the verification module) are idealised as an injective, opaque pairing of
  salt and preimage in the type `Digest`; collision-freedom of the hash is
  assumed.  Nothing outside the hashing functions inspects a `Digest`.
* Fallible code is modelled with `Option`; stateful code passes the cache and
  the durable user table explicitly and returns the updated copies.
* `app/utils/verification/registration.py` is absent from the source tree
  (only its caller `auth.py` imports it); its definitions below are modelled
  from the spec and are marked as such in their doc comments.
-/

namespace EventSphere

/-- Modelled from the spec (section 4.1): a cryptographic digest is idealised as
the injective, opaque pair of the salt and the hashed preimage.  Real digests
are hex strings; no code outside the two hash functions looks inside. -/
structure Digest where
  salt : String
  pre : String
deriving DecidableEq

/-- Modelled from the spec: `hash_code(code, salt)` of the missing module
`app/utils/verification/registration.py` — a deterministic salted one-way
digest of the verification code, salted with the registration id. -/
def hash_code (code : String) (salt : String) : Digest := ⟨salt, code⟩

/-- Source `password_reset.py` lines 49-53: `hash_token` is an unsalted SHA-256
digest of the reset token, idealised into `Digest` with empty salt. -/
def hash_token (token : String) : Digest := ⟨"", token⟩

/-- Source `password_reset.py` lines 18-25: the `PasswordResetToken` dataclass.
`token_hash` holds a digest (a hex string in Python). -/
structure PasswordResetToken where
  user_id : String
  email : String
  token_hash : Digest
  attempts : Nat
deriving DecidableEq

/-- Modelled from the spec (section 3): the `PendingRegistration` record of the
missing module `app/utils/verification/registration.py`, with the fields the
controller `auth.py` reads and writes.  `password_hash` is a Werkzeug password
digest, `code_hash` the salted code digest, `attempts` the embedded
verification-attempt counter (0 at creation). -/
structure PendingRegistration where
  email : String
  firstname : String
  lastname : String
  username : String
  password_hash : Digest
  code_hash : Digest
  attempts : Nat
deriving DecidableEq

/-- A JSON scalar as used by the records stored in the cache.  Digest-valued
fields are kept opaque (`jdig`), matching the fact that only the hex digest of
a secret ever reaches the serialized form. -/
inductive JVal where
  | jstr (s : String)
  | jnum (n : Nat)
  | jdig (d : Digest)
deriving DecidableEq

/-- A flat JSON object: the only JSON shape the verification modules produce.
The external `json.dumps`/`json.loads` pair is treated as the identity bridge
between this value level and the stored string. -/
abbrev Json := List (String × JVal)

/-- First-match field lookup in a JSON object (as `dict` access after
`json.loads`; `to_json` never produces duplicate keys). -/
def jlookup (j : Json) (k : String) : Option JVal :=
  match j with
  | [] => none
  | p :: rest => if p.1 = k then some p.2 else jlookup rest k

/-- The field names of the `PasswordResetToken` dataclass; `from_json` rejects
any other keyword argument (Python raises `TypeError`). -/
def resetFieldNames : List String := ["user_id", "email", "token_hash", "attempts"]

/-- Source `password_reset.py` lines 27-28: `to_json` is `json.dumps(asdict(self))`,
a field-for-field stable encoding of the record. -/
def PasswordResetToken.to_json (r : PasswordResetToken) : Json :=
  [("user_id", .jstr r.user_id), ("email", .jstr r.email),
   ("token_hash", .jdig r.token_hash), ("attempts", .jnum r.attempts)]

/-- Source `password_reset.py` lines 30-33: `from_json` is
`PasswordResetToken(**json.loads(data))`.  Failure (missing required field,
unexpected key, ill-typed field) is modelled as `none`; the dataclass default
`attempts = 0` applies when the key is absent. -/
def PasswordResetToken.from_json (j : Json) : Option PasswordResetToken :=
  if (j.map Prod.fst).all (fun k => decide (k ∈ resetFieldNames)) then
    match jlookup j "user_id", jlookup j "email", jlookup j "token_hash" with
    | some (.jstr u), some (.jstr e), some (.jdig t) =>
      match jlookup j "attempts" with
      | some (.jnum a) => some ⟨u, e, t, a⟩
      | none => some ⟨u, e, t, 0⟩
      | some _ => none
    | _, _, _ => none
  else none

/-! ### The shared ephemeral cache

Namespaced string keys (`"pending_registration:<reg_id>"`,
`"password_reset:<token_hash>"`, `"password_reset_rate_limit:<email>"`,
source `password_reset.py` lines 36-41) are modelled as an inductive key type;
the distinct prefixes make the real keys injective per namespace. -/

inductive CacheKey where
  | pendingReg (regId : String)
  | pwdReset (tokenHash : Digest)
  | pwdResetRate (email : String)
deriving DecidableEq

/-- The values the verification workflow places in the cache: serialized JSON
records, bare integer counters, and (for the spec-modelled registration module)
pending-registration records under their stable encoding. -/
inductive CacheVal where
  | vjson (j : Json)
  | vnat (n : Nat)
  | vpend (p : PendingRegistration)
deriving DecidableEq

/-- One `SimpleCache` slot: value plus absolute expiry instant in seconds
(`0` means "never expires", as in `SimpleCache._get_expiration`). -/
structure CacheEntry where
  key : CacheKey
  val : CacheVal
  expiresAt : Nat
deriving DecidableEq

abbrev Cache := List CacheEntry

def emptyCache : Cache := []

/-- Find the slot stored under a key, ignoring expiry. -/
def cacheGetEntry : Cache → CacheKey → Option CacheEntry
  | [], _ => none
  | e :: rest, k => if e.key = k then some e else cacheGetEntry rest k

/-- `SimpleCache.delete`: drop the key; deleting an absent key is a no-op. -/
def cacheDelete : Cache → CacheKey → Cache
  | [], _ => []
  | e :: rest, k => if e.key = k then cacheDelete rest k else e :: cacheDelete rest k

/-- `SimpleCache.set(key, value, timeout)`: overwrite the slot and set its
expiry to `now + timeout` seconds (`timeout = 0` meaning "never expire"). -/
def cacheSet (c : Cache) (now : Nat) (k : CacheKey) (v : CacheVal) (ttlSeconds : Nat) : Cache :=
  ⟨k, v, if ttlSeconds = 0 then 0 else now + ttlSeconds⟩ :: cacheDelete c k

/-- `SimpleCache.get(key)`: the value while the slot is unexpired
(`expires == 0 or expires > time()`), the absent sentinel otherwise —
a missing key and an expired key are indistinguishable. -/
def cacheGet (c : Cache) (now : Nat) (k : CacheKey) : Option CacheVal :=
  match cacheGetEntry c k with
  | none => none
  | some e => if e.expiresAt = 0 ∨ now < e.expiresAt then some e.val else none

/-- The absolute expiry instant currently recorded under a key. -/
def cacheExpiry (c : Cache) (k : CacheKey) : Option Nat :=
  (cacheGetEntry c k).map CacheEntry.expiresAt

/-! ### `app/utils/verification/password_reset.py` (present in the source) -/

/-- Source line 36-37: `_key(token_hash) = "password_reset:" + token_hash`. -/
def pwdResetKey (tokenHash : Digest) : CacheKey := .pwdReset tokenHash

/-- Source lines 40-41:
`_rate_limit_key(email) = "password_reset_rate_limit:" + email`. -/
def rateLimitKey (email : String) : CacheKey := .pwdResetRate email

/-- Source lines 56-58: serialize the record and store it with
`timeout = ttl_minutes * 60` seconds.  The Python default is
`ttl_minutes = 30`; callers that rely on the default pass 30 explicitly
here. -/
def store_password_reset_token (c : Cache) (now : Nat) (tokenHash : Digest)
    (reset_data : PasswordResetToken) (ttl_minutes : Nat) : Cache :=
  cacheSet c now (pwdResetKey tokenHash) (.vjson reset_data.to_json) (60 * ttl_minutes)

/-- Source lines 61-69: fetch and parse the record; an absent or expired key,
a falsy raw value, or any parse failure yields `None`. -/
def get_password_reset_token (c : Cache) (now : Nat) (tokenHash : Digest) :
    Option PasswordResetToken :=
  match cacheGet c now (pwdResetKey tokenHash) with
  | some (.vjson j) => PasswordResetToken.from_json j
  | some _ => none
  | none => none

/-- Source lines 72-74: delete the record (idempotent). -/
def delete_password_reset_token (c : Cache) (tokenHash : Digest) : Cache :=
  cacheDelete c (pwdResetKey tokenHash)

/-- Source lines 77-85: read the record, bump `attempts`, re-store it (the call
passes no TTL, so the Python default of 30 minutes applies — despite the
comment in the source, this RESETS the TTL), and return the new count; an
absent record returns 0 and leaves the cache untouched. -/
def increment_token_attempts (c : Cache) (now : Nat) (tokenHash : Digest) : Cache × Nat :=
  match get_password_reset_token c now tokenHash with
  | none => (c, 0)
  | some r0 =>
    (store_password_reset_token c now tokenHash
      { r0 with attempts := r0.attempts + 1 } 30, r0.attempts + 1)

/-- Source lines 88-99: read-only rate-limit check.  The counter defaults to 0
when the key is absent (`app_cache.get(key) or 0`); a non-integer value at the
key would raise on the comparison, modelled as `none`.  The cache is returned
unchanged to make the absence of mutation part of the result. -/
def check_rate_limit (c : Cache) (now : Nat) (email : String) (max_attempts : Nat) :
    Option (Cache × Bool × Nat) :=
  match cacheGet c now (rateLimitKey email) with
  | some (.vnat n) =>
    some (if max_attempts ≤ n then (c, true, 0) else (c, false, max_attempts - n))
  | none =>
    some (if max_attempts ≤ 0 then (c, true, 0) else (c, false, max_attempts))
  | some _ => none

/-- Source lines 102-111: bump the per-email counter and (re)set its TTL to
`window_minutes` from now (the Python default is 15). -/
def increment_rate_limit (c : Cache) (now : Nat) (email : String) (window_minutes : Nat) :
    Option (Cache × Nat) :=
  match cacheGet c now (rateLimitKey email) with
  | some (.vnat n) =>
    some (cacheSet c now (rateLimitKey email) (.vnat (n + 1)) (60 * window_minutes), n + 1)
  | none =>
    some (cacheSet c now (rateLimitKey email) (.vnat 1) (60 * window_minutes), 1)
  | some _ => none

/-- Source lines 114-117: delete the per-email counter. -/
def reset_rate_limit (c : Cache) (email : String) : Cache :=
  cacheDelete c (rateLimitKey email)

/-! ### The registration cache module (absent from the source tree)

`auth.py` imports `PendingRegistration`, `store_pending_registration`,
`get_pending_registration`, `delete_pending_registration`,
`generate_registration_id`, `hash_code` and `increment_attempts` from
`app.utils.verification.registration`, which is not under the source tree.
The definitions below are modelled from the spec (sections 3, 4.2 and 4.4),
structurally parallel to `password_reset.py`. -/

/-- Modelled from the spec (section 4.2): the namespaced cache key of a pending
registration, looked up by `registration_id`. -/
def pendingKey (regId : String) : CacheKey := .pendingReg regId

/-- Modelled from the spec (section 4.2): `store` serializes the record
field-for-field under a stable encoding and sets/refreshes the TTL; the
encode/decode pair is absorbed into the typed cache slot `CacheVal.vpend`. -/
def store_pending_registration (c : Cache) (now : Nat) (regId : String)
    (p : PendingRegistration) (ttl_minutes : Nat) : Cache :=
  cacheSet c now (pendingKey regId) (.vpend p) (60 * ttl_minutes)

/-- Modelled from the spec (section 4.2): `get` returns the record, or the
absent sentinel when the key is missing or expired. -/
def get_pending_registration (c : Cache) (now : Nat) (regId : String) :
    Option PendingRegistration :=
  match cacheGet c now (pendingKey regId) with
  | some (.vpend p) => some p
  | some _ => none
  | none => none

/-- Modelled from the spec (section 4.2): idempotent delete. -/
def delete_pending_registration (c : Cache) (regId : String) : Cache :=
  cacheDelete c (pendingKey regId)

/-- Modelled from the spec (sections 4.4 and 9): increment the embedded
`attempts` counter and re-store the record — the source refreshes the TTL on
every store call, and the registration window is 15 minutes; returns the new
count, or 0 when the record is absent (parallel to
`increment_token_attempts`). -/
def increment_attempts (c : Cache) (now : Nat) (regId : String) : Cache × Nat :=
  match get_pending_registration c now regId with
  | none => (c, 0)
  | some p =>
    (store_pending_registration c now regId { p with attempts := p.attempts + 1 } 15,
     p.attempts + 1)

/-! ### Durable user store

The `AppUser` rows the controller touches: `sign_up` and `verify_email` query
existence by email and by username, `verify_email` inserts a new row.  Users
are identified by their (unique) email in this embedding; the Werkzeug
password hash is a `Digest`. -/

structure AppUser where
  email : String
  username : String
  password_hash : Digest
deriving DecidableEq

abbrev Db := List AppUser

/-- `db.session.query(AppUser.id).filter_by(email=email).scalar() is not None`. -/
def emailExists (db : Db) (email : String) : Bool :=
  db.any (fun u => decide (u.email = email))

/-- `db.session.query(AppUser.id).filter_by(username=username).scalar() is not None`. -/
def usernameExists (db : Db) (username : String) : Bool :=
  db.any (fun u => decide (u.username = username))

/-- Modelled from the spec (section 6): `create_access_token` (the credential
issuer) is opaque, a pure function of the identity claims; the claims carry the
user identity (the user's email in this embedding). -/
structure AccessToken where
  identity_email : String
deriving DecidableEq

/-! ### Controller operations (`auth.py`, present in the source)

The random inputs the real code draws (`generate_random_number(6)` for the
code, `generate_registration_id()` / `generate_reset_token()` for ids and
tokens) are passed in as explicit parameters; the external email validator is
abstracted to the `.lower()` normalisation the controller itself performs, and
outbound email dispatch is out-of-band (it never touches cache, db or
response). -/

inductive ApiResult where
  | err (msg : String) (status : Nat)
  | okSignUp (msg : String) (reg_id : String)
  | okVerify (msg : String) (access_token : AccessToken) (user_email : String)
      (user_username : String)
  | okGeneric (msg : String)
deriving DecidableEq

structure SignUpPayload where
  email : String
  firstname : String
  lastname : String
  username : String
  password : String
deriving DecidableEq

/-- Modelled from the spec: Werkzeug `set_password` — a salted one-way password
digest, idealised like the other digests. -/
def hashPassword (password : String) : Digest := ⟨"werkzeug", password⟩

/-- ASCII lowercasing of one character (executable reimplementation of what
`str.lower()` does on the ASCII range). -/
def lowerChar (ch : Char) : Char :=
  if ch.isUpper then Char.ofNat (ch.toNat + 32) else ch

/-- `payload.email.lower()` (auth.py line 45); the external validator's
`normalized` form of an already-lowercased address is abstracted to the
lowercased address itself. -/
def lowerString (s : String) : String := String.mk (s.data.map lowerChar)

/-- The pending record `sign_up` builds (auth.py lines 80-92). -/
def buildPending (payload : SignUpPayload) (email : String) (code_h : Digest) :
    PendingRegistration :=
  { email := email, firstname := payload.firstname, lastname := payload.lastname,
    username := payload.username, password_hash := hashPassword payload.password,
    code_hash := code_h, attempts := 0 }

/-- Source auth.py lines 38-99, `AuthController.sign_up`: validate the payload,
check email/username uniqueness against the durable store only, then cache the
pending record (hashed code, hashed password) for 15 minutes and return the
registration id.  `code` and `reg_id` stand for the randomly generated values. -/
def sign_up (db : Db) (c : Cache) (now : Nat) (payload : SignUpPayload)
    (code : String) (reg_id : String) : Cache × ApiResult :=
  let email := lowerString payload.email
  if email = "" then (c, .err "email is empty" 400)
  else if payload.firstname = "" then (c, .err "firstname is empty" 400)
  else if payload.password = "" then (c, .err "password is empty" 400)
  else if emailExists db email then (c, .err "Email already taken" 409)
  else if payload.username ≠ "" ∧ usernameExists db payload.username then
    (c, .err "Username already taken" 409)
  else
    let pending := buildPending payload email (hash_code code reg_id)
    (store_pending_registration c now reg_id pending 15,
     .okSignUp "Verification code sent successfully" reg_id)

structure VerifyPayload where
  reg_id : String
  code : String
deriving DecidableEq

/-- The success tail of `verify_email` (auth.py lines 131-158): insert the
durable user built from the captured pending fields, delete the pending record,
and answer with an access credential and the user data.  (Profile, address and
role rows carry no workflow state and are not modelled.) -/
def verifyCreate (db : Db) (c : Cache) (reg_id : String) (pending : PendingRegistration) :
    Db × Cache × ApiResult :=
  (db ++ [⟨pending.email, pending.username, pending.password_hash⟩],
   delete_pending_registration c reg_id,
   .okVerify "Email verified and account created" ⟨pending.email⟩
     pending.email pending.username)

/-- Source auth.py lines 102-158, `AuthController.verify_email`: look up the
pending record (absent ⇒ "invalid or expired verification"); increment the
embedded attempts counter and, past 10, delete the record and fail
("too many attempts"); compare the salted hash of the submitted code
(mismatch ⇒ "invalid code", record kept); re-check email/username uniqueness
(conflict ⇒ delete the record and fail); otherwise finalize the user. -/
def verify_email (db : Db) (c : Cache) (now : Nat) (payload : VerifyPayload) :
    Db × Cache × ApiResult :=
  match get_pending_registration c now payload.reg_id with
  | none => (db, c, .err "invalid or expired verification" 400)
  | some pending =>
    let inc := increment_attempts c now payload.reg_id
    if 10 < inc.2 then
      (db, delete_pending_registration inc.1 payload.reg_id, .err "too many attempts" 429)
    else if pending.code_hash ≠ hash_code payload.code payload.reg_id then
      (db, inc.1, .err "invalid code" 400)
    else if emailExists db pending.email then
      (db, delete_pending_registration inc.1 payload.reg_id, .err "Email already taken" 409)
    else if pending.username ≠ "" ∧ usernameExists db pending.username then
      (db, delete_pending_registration inc.1 payload.reg_id,
       .err "Username already taken" 409)
    else
      verifyCreate db inc.1 payload.reg_id pending

/-- Source auth.py lines 160-189, `AuthController.resend_verification_code`:
look up the pending record (absent ⇒ fail); refuse when the record's `attempts`
field has reached 3 ("maximum resend attempts exceeded"); otherwise store the
record back with a fresh code hash (and refreshed 15-minute TTL).  Note the
source never increments any counter here.  `new_code` stands for the randomly
generated code. -/
def resend_verification_code (c : Cache) (now : Nat) (reg_id : String)
    (new_code : String) : Cache × ApiResult :=
  match get_pending_registration c now reg_id with
  | none => (c, .err "invalid or expired registration" 400)
  | some pending =>
    if 3 ≤ pending.attempts then (c, .err "maximum resend attempts exceeded" 429)
    else
      (store_pending_registration c now reg_id
        { pending with code_hash := hash_code new_code reg_id } 15,
       .okGeneric "Verification code resent")

/-! ### Password-reset controller operations (absent from the source tree)

The routes file registers `AuthController.forgot_password`,
`AuthController.validate_reset_token` and `AuthController.reset_password`, but
those methods are not in the controller under the source tree; they are
modelled from the spec (sections 4.4, 6 and 7). -/

/-- Modelled from the spec: `begin_password_reset(email) -> ok (always, to
prevent enumeration)` — when the email belongs to a durable user, hash the
fresh token and store the `PasswordResetToken` record for 30 minutes; always
answer generic success.  `token` stands for the generated reset token. -/
def forgot_password (db : Db) (c : Cache) (now : Nat) (email : String)
    (token : String) : Cache × ApiResult :=
  if emailExists db email then
    let th := hash_token token
    (store_password_reset_token c now th ⟨email, email, th, 0⟩ 30,
     .okGeneric "If the email exists, a reset link has been sent")
  else (c, .okGeneric "If the email exists, a reset link has been sent")

/-- Modelled from the spec (section 4.4 Verify, applied to reset tokens): hash
the presented token, look it up (absent ⇒ "invalid or expired"), bump the
embedded attempts counter and past 10 delete the record and fail; otherwise
report the token valid. -/
def validate_reset_token (c : Cache) (now : Nat) (token : String) : Cache × ApiResult :=
  let th := hash_token token
  match get_password_reset_token c now th with
  | none => (c, .err "invalid or expired token" 400)
  | some _ =>
    let inc := increment_token_attempts c now th
    if 10 < inc.2 then
      (delete_password_reset_token inc.1 th, .err "too many attempts" 429)
    else (inc.1, .okGeneric "Token is valid")

/-- Modelled from the spec (sections 4.4 and 4.3): `reset_password(token,
new_password)` — hash and look up the token (absent ⇒ fail), enforce the
attempt ceiling, then set the durable user's password hash, consume the token
record and reset the per-email rate limiter. -/
def reset_password (db : Db) (c : Cache) (now : Nat) (token : String)
    (new_password : String) : Db × Cache × ApiResult :=
  let th := hash_token token
  match get_password_reset_token c now th with
  | none => (db, c, .err "invalid or expired token" 400)
  | some r =>
    let inc := increment_token_attempts c now th
    if 10 < inc.2 then
      (db, delete_password_reset_token inc.1 th, .err "too many attempts" 429)
    else
      (db.map (fun u => if u.email = r.email then
          { u with password_hash := hashPassword new_password } else u),
       reset_rate_limit (delete_password_reset_token inc.1 th) r.email,
       .okGeneric "Password reset successfully")

/-! ### Cache lemma kit -/

theorem cacheGetEntry_delete_self (c : Cache) (k : CacheKey) :
    cacheGetEntry (cacheDelete c k) k = none := by
  induction c with
  | nil => rfl
  | cons e rest ih =>
    by_cases h : e.key = k
    · simp [cacheDelete, h, ih]
    · simp [cacheDelete, cacheGetEntry, h, ih]

theorem cacheGetEntry_delete_other (c : Cache) (k k2 : CacheKey) (h : k2 ≠ k) :
    cacheGetEntry (cacheDelete c k) k2 = cacheGetEntry c k2 := by
  have hks : k ≠ k2 := Ne.symm h
  induction c with
  | nil => rfl
  | cons e rest ih =>
    by_cases he : e.key = k
    · simp [cacheDelete, cacheGetEntry, he, hks, ih]
    · by_cases he2 : e.key = k2
      · simp [cacheDelete, cacheGetEntry, he, he2, h]
      · simp [cacheDelete, cacheGetEntry, he, he2, ih]

theorem cacheGet_set_self (c : Cache) (now t : Nat) (k : CacheKey) (v : CacheVal)
    (ttl : Nat) (h : 0 < ttl) :
    cacheGet (cacheSet c now k v ttl) t k = if t < now + ttl then some v else none := by
  have hne : ¬(ttl = 0) := Nat.pos_iff_ne_zero.mp h
  have hsum : ¬(now + ttl = 0) := by omega
  simp [cacheGet, cacheSet, cacheGetEntry, hne, hsum]

theorem cacheGet_set_other (c : Cache) (now t : Nat) (k k2 : CacheKey) (v : CacheVal)
    (ttl : Nat) (h : k2 ≠ k) :
    cacheGet (cacheSet c now k v ttl) t k2 = cacheGet c t k2 := by
  simp [cacheGet, cacheSet, cacheGetEntry, Ne.symm h, cacheGetEntry_delete_other c k k2 h]

theorem cacheGet_delete_self (c : Cache) (t : Nat) (k : CacheKey) :
    cacheGet (cacheDelete c k) t k = none := by
  simp [cacheGet, cacheGetEntry_delete_self]

theorem cacheGet_delete_other (c : Cache) (t : Nat) (k k2 : CacheKey) (h : k2 ≠ k) :
    cacheGet (cacheDelete c k) t k2 = cacheGet c t k2 := by
  simp [cacheGet, cacheGetEntry_delete_other c k k2 h]

theorem cacheExpiry_set_self (c : Cache) (now : Nat) (k : CacheKey) (v : CacheVal)
    (ttl : Nat) (h : 0 < ttl) :
    cacheExpiry (cacheSet c now k v ttl) k = some (now + ttl) := by
  have hne : ¬(ttl = 0) := Nat.pos_iff_ne_zero.mp h
  simp [cacheExpiry, cacheSet, cacheGetEntry, hne]

/-- The serialize/deserialize pair of `PasswordResetToken` is a left-inverse
round trip. -/
theorem from_json_to_json (r : PasswordResetToken) :
    PasswordResetToken.from_json r.to_json = some r := rfl

/-! ### Claims -/

/-- C10: decoding the JSON encoding of any `PasswordResetToken` record
reconstructs an equal record — `from_json (to_json r) = r` on all four fields
`user_id`, `email`, `token_hash`, `attempts`. -/
theorem c10_reset_token_json_roundtrip (r : PasswordResetToken) :
    PasswordResetToken.from_json r.to_json = some r :=
  from_json_to_json r

/-- C6: after storing a password-reset record with `ttl_minutes = 15` at time
`t0`, a get at any time strictly before `t0 + 15` minutes returns the record,
a get at any time from `t0 + 15` minutes on returns the absent sentinel, and
the expired result is literally the result for a key that never existed. -/
theorem c6_ttl_expiry (c : Cache) (t0 t : Nat) (th : Digest) (r : PasswordResetToken) :
    (t < t0 + 900 →
      get_password_reset_token (store_password_reset_token c t0 th r 15) t th = some r) ∧
    (t0 + 900 ≤ t →
      get_password_reset_token (store_password_reset_token c t0 th r 15) t th = none) ∧
    (t0 + 900 ≤ t →
      get_password_reset_token (store_password_reset_token c t0 th r 15) t th =
        get_password_reset_token emptyCache t th) := by
  have hget := cacheGet_set_self c t0 t (pwdResetKey th) (.vjson r.to_json) (60 * 15)
    (by omega)
  refine ⟨?_, ?_, ?_⟩
  · intro hlt
    have : t < t0 + 60 * 15 := by omega
    simp [get_password_reset_token, store_password_reset_token, hget, this,
      from_json_to_json]
  · intro hge
    have : ¬(t < t0 + 60 * 15) := by omega
    simp [get_password_reset_token, store_password_reset_token, hget, this]
  · intro hge
    have : ¬(t < t0 + 60 * 15) := by omega
    simp [get_password_reset_token, store_password_reset_token, hget, this, emptyCache,
      cacheGet, cacheGetEntry]

theorem c6_ttl_expiry_witness :
    get_password_reset_token
      (store_password_reset_token emptyCache 0 ⟨"", "tok"⟩ ⟨"u1", "a@x.com", ⟨"", "tok"⟩, 0⟩ 15)
      840 ⟨"", "tok"⟩ = some ⟨"u1", "a@x.com", ⟨"", "tok"⟩, 0⟩ ∧
    get_password_reset_token
      (store_password_reset_token emptyCache 0 ⟨"", "tok"⟩ ⟨"u1", "a@x.com", ⟨"", "tok"⟩, 0⟩ 15)
      960 ⟨"", "tok"⟩ = none :=
  ⟨(c6_ttl_expiry emptyCache 0 840 ⟨"", "tok"⟩ ⟨"u1", "a@x.com", ⟨"", "tok"⟩, 0⟩).1
    (by decide),
   (c6_ttl_expiry emptyCache 0 960 ⟨"", "tok"⟩ ⟨"u1", "a@x.com", ⟨"", "tok"⟩, 0⟩).2.1
    (by decide)⟩

/-- C7: every store call resets the key's TTL to the full window measured from
the call time — `store_password_reset_token` with window `m` minutes sets the
expiry to `now + 60*m`; the re-store inside `increment_token_attempts` resets
the expiry to `now + 1800` (the 30-minute password-reset window); and the
re-store inside `resend_verification_code` resets the expiry to `now + 900`
(the 15-minute registration window). -/
theorem c7_store_refreshes_ttl (c c2 : Cache) (now : Nat) (th : Digest)
    (r0 r : PasswordResetToken) (m : Nat) (rid new_code : String)
    (p : PendingRegistration) (hm : 0 < m)
    (hr : get_password_reset_token c now th = some r)
    (hp : get_pending_registration c2 now rid = some p)
    (hp3 : p.attempts < 3) :
    cacheExpiry (store_password_reset_token c now th r0 m) (pwdResetKey th) =
      some (now + 60 * m) ∧
    cacheExpiry (increment_token_attempts c now th).1 (pwdResetKey th) =
      some (now + 1800) ∧
    cacheExpiry (resend_verification_code c2 now rid new_code).1 (pendingKey rid) =
      some (now + 900) := by
  have h60m : 0 < 60 * m := Nat.mul_pos (by omega) hm
  refine ⟨?_, ?_, ?_⟩
  · simpa [store_password_reset_token] using
      cacheExpiry_set_self c now (pwdResetKey th) (.vjson r0.to_json) (60 * m) h60m
  · have : (1800 : Nat) = 60 * 30 := by norm_num
    rw [increment_token_attempts, hr, this]
    simpa [store_password_reset_token] using
      cacheExpiry_set_self c now (pwdResetKey th)
        (.vjson (PasswordResetToken.to_json { r with attempts := r.attempts + 1 }))
        (60 * 30) (by omega)
  · have hlt : ¬(3 ≤ p.attempts) := by omega
    have : (900 : Nat) = 60 * 15 := by norm_num
    rw [resend_verification_code, hp, this]
    simp only [hlt, if_false]
    simpa [store_pending_registration] using
      cacheExpiry_set_self c2 now (pendingKey rid)
        (.vpend { p with code_hash := hash_code new_code rid }) (60 * 15) (by omega)

theorem c7_store_refreshes_ttl_witness :
    cacheExpiry
      (store_password_reset_token emptyCache 7 ⟨"", "tok"⟩ ⟨"u1", "a@x.com", ⟨"", "tok"⟩, 0⟩ 30)
      (pwdResetKey ⟨"", "tok"⟩) = some (7 + 60 * 30) ∧
    cacheExpiry
      (increment_token_attempts
        (store_password_reset_token emptyCache 0 ⟨"", "tok"⟩ ⟨"u1", "a@x.com", ⟨"", "tok"⟩, 0⟩ 30)
        7 ⟨"", "tok"⟩).1
      (pwdResetKey ⟨"", "tok"⟩) = some (7 + 1800) ∧
    cacheExpiry
      (resend_verification_code
        (store_pending_registration emptyCache 0 "r1"
          ⟨"a@x.com", "A", "", "", ⟨"werkzeug", "pw"⟩, ⟨"r1", "111111"⟩, 0⟩ 15)
        7 "r1" "222222").1
      (pendingKey "r1") = some (7 + 900) :=
  c7_store_refreshes_ttl
    (store_password_reset_token emptyCache 0 ⟨"", "tok"⟩ ⟨"u1", "a@x.com", ⟨"", "tok"⟩, 0⟩ 30)
    (store_pending_registration emptyCache 0 "r1"
      ⟨"a@x.com", "A", "", "", ⟨"werkzeug", "pw"⟩, ⟨"r1", "111111"⟩, 0⟩ 15)
    7 ⟨"", "tok"⟩ ⟨"u1", "a@x.com", ⟨"", "tok"⟩, 0⟩
    ⟨"u1", "a@x.com", ⟨"", "tok"⟩, 0⟩ 30 "r1" "222222"
    ⟨"a@x.com", "A", "", "", ⟨"werkzeug", "pw"⟩, ⟨"r1", "111111"⟩, 0⟩
    (by decide) (by decide) (by decide) (by decide)

/-- C9: `check_rate_limit` leaves the cache unchanged and, with stored counter
`n` (an absent counter counting as zero), returns `is_limited = true` and
`remaining = 0` exactly when `n ≥ max_attempts`, and otherwise
`is_limited = false` with `remaining = max_attempts - n`. -/
theorem c9_check_rate_limit_readonly (c : Cache) (now : Nat) (email : String)
    (max_attempts n : Nat)
    (h : cacheGet c now (rateLimitKey email) = some (.vnat n) ∨
         (cacheGet c now (rateLimitKey email) = none ∧ n = 0)) :
    check_rate_limit c now email max_attempts =
      some (c, decide (max_attempts ≤ n), max_attempts - n) := by
  rcases h with h | ⟨h, rfl⟩
  · simp only [check_rate_limit, h]
    by_cases hle : max_attempts ≤ n
    · simp [hle, Nat.sub_eq_zero_of_le hle]
    · simp [hle]
  · simp only [check_rate_limit, h]
    by_cases hle : max_attempts ≤ 0
    · simp [hle, Nat.le_zero.mp hle]
    · simp [hle]

theorem c9_check_rate_limit_readonly_witness :
    check_rate_limit
      (cacheSet emptyCache 0 (rateLimitKey "a@x.com") (.vnat 5) 900) 10 "a@x.com" 3 =
      some (cacheSet emptyCache 0 (rateLimitKey "a@x.com") (.vnat 5) 900, true, 0) :=
  c9_check_rate_limit_readonly
    (cacheSet emptyCache 0 (rateLimitKey "a@x.com") (.vnat 5) 900) 10 "a@x.com" 3 5
    (Or.inl (by decide))

/-! ### Pending-registration lemma kit -/

theorem get_pending_store_self (c : Cache) (now t : Nat) (rid : String)
    (p : PendingRegistration) (m : Nat) (hm : 0 < m) :
    get_pending_registration (store_pending_registration c now rid p m) t rid =
      if t < now + 60 * m then some p else none := by
  have h60m : 0 < 60 * m := Nat.mul_pos (by omega) hm
  have hset := cacheGet_set_self c now t (pendingKey rid) (.vpend p) (60 * m) h60m
  by_cases hlt : t < now + 60 * m
  · simp [get_pending_registration, store_pending_registration, hset, hlt]
  · simp [get_pending_registration, store_pending_registration, hset, hlt]

theorem get_pending_delete_self (c : Cache) (t : Nat) (rid : String) :
    get_pending_registration (delete_pending_registration c rid) t rid = none := by
  simp [get_pending_registration, delete_pending_registration, cacheGet_delete_self]

theorem get_pending_store_other (c : Cache) (now t : Nat) (rid rid2 : String)
    (p : PendingRegistration) (m : Nat) (h : rid2 ≠ rid) :
    get_pending_registration (store_pending_registration c now rid p m) t rid2 =
      get_pending_registration c t rid2 := by
  have hk : pendingKey rid2 ≠ pendingKey rid := by
    simp [pendingKey, h]
  simp [get_pending_registration, store_pending_registration,
    cacheGet_set_other c now t (pendingKey rid) (pendingKey rid2) _ _ hk]

/-- A `verify_email` call on a live record, within the attempt ceiling, with a
code whose salted hash mismatches: the full output of the call. -/
theorem verify_email_wrong_code (db : Db) (c : Cache) (now : Nat)
    (payload : VerifyPayload) (p : PendingRegistration)
    (hget : get_pending_registration c now payload.reg_id = some p)
    (hceil : p.attempts + 1 ≤ 10)
    (hwrong : p.code_hash ≠ hash_code payload.code payload.reg_id) :
    verify_email db c now payload =
      (db, store_pending_registration c now payload.reg_id
        { p with attempts := p.attempts + 1 } 15, .err "invalid code" 400) := by
  have h10 : ¬(10 < p.attempts + 1) := by omega
  simp [verify_email, increment_attempts, hget, h10, hwrong]

/-- A `verify_email` call on a live record whose counter has already reached
10: the call reports "too many attempts" and purges the record. -/
theorem verify_email_ceiling (db : Db) (c : Cache) (now : Nat)
    (payload : VerifyPayload) (p : PendingRegistration)
    (hget : get_pending_registration c now payload.reg_id = some p)
    (h10 : 10 ≤ p.attempts) :
    (verify_email db c now payload).2.2 = .err "too many attempts" 429 ∧
    get_pending_registration (verify_email db c now payload).2.1 now payload.reg_id =
      none := by
  have h : 10 < p.attempts + 1 := by omega
  constructor <;>
    simp [verify_email, increment_attempts, hget, h, get_pending_delete_self]

/-- C5: a `verify_email` call whose submitted code hashes to something other
than the stored `code_hash`, on a live record whose incremented attempts
counter stays within the ceiling of 10, fails with "invalid code" while the
record survives in the store with `attempts` incremented by exactly one and
every other field unchanged. -/
theorem c5_wrong_code_frame (db : Db) (c : Cache) (now : Nat) (payload : VerifyPayload)
    (p : PendingRegistration)
    (hget : get_pending_registration c now payload.reg_id = some p)
    (hceil : p.attempts + 1 ≤ 10)
    (hwrong : p.code_hash ≠ hash_code payload.code payload.reg_id) :
    verify_email db c now payload =
      (db, store_pending_registration c now payload.reg_id
        { p with attempts := p.attempts + 1 } 15, .err "invalid code" 400) ∧
    get_pending_registration (verify_email db c now payload).2.1 now payload.reg_id =
      some { p with attempts := p.attempts + 1 } := by
  have heq := verify_email_wrong_code db c now payload p hget hceil hwrong
  refine ⟨heq, ?_⟩
  rw [heq]
  have hnow : now < now + 60 * 15 := by omega
  simp [get_pending_store_self c now now payload.reg_id
    { p with attempts := p.attempts + 1 } 15 (by omega), hnow]

theorem c5_wrong_code_frame_witness :
    get_pending_registration
      (verify_email []
        (store_pending_registration emptyCache 0 "r1"
          ⟨"a@x.com", "A", "", "", ⟨"werkzeug", "pw"⟩, ⟨"r1", "111111"⟩, 0⟩ 15)
        0 ⟨"r1", "000000"⟩).2.1 0 "r1" =
      some ⟨"a@x.com", "A", "", "", ⟨"werkzeug", "pw"⟩, ⟨"r1", "111111"⟩, 1⟩ :=
  (c5_wrong_code_frame []
    (store_pending_registration emptyCache 0 "r1"
      ⟨"a@x.com", "A", "", "", ⟨"werkzeug", "pw"⟩, ⟨"r1", "111111"⟩, 0⟩ 15)
    0 ⟨"r1", "000000"⟩
    ⟨"a@x.com", "A", "", "", ⟨"werkzeug", "pw"⟩, ⟨"r1", "111111"⟩, 0⟩
    (by decide) (by decide) (by decide)).2

/-- C4: whenever `verify_email` returns one of the terminal failures — the
attempts ceiling exceeded, or an email/username conflict at the final
uniqueness re-check — it has deleted the pending record, so no pending record
for that registration id remains in the store. -/
theorem c4_terminal_failure_deletes (db : Db) (c : Cache) (now : Nat)
    (payload : VerifyPayload)
    (hfail : (verify_email db c now payload).2.2 = .err "too many attempts" 429 ∨
             (verify_email db c now payload).2.2 = .err "Email already taken" 409 ∨
             (verify_email db c now payload).2.2 = .err "Username already taken" 409) :
    get_pending_registration (verify_email db c now payload).2.1 now payload.reg_id =
      none := by
  cases hg : get_pending_registration c now payload.reg_id with
  | none => simp [verify_email, hg] at hfail
  | some p =>
    by_cases h10 : 10 < p.attempts + 1
    · simp [verify_email, increment_attempts, hg, h10, get_pending_delete_self]
    · by_cases hcode : p.code_hash = hash_code payload.code payload.reg_id
      · by_cases hmail : emailExists db p.email = true
        · simp [verify_email, increment_attempts, hg, h10, hcode, hmail,
            get_pending_delete_self]
        · by_cases huser : p.username ≠ "" ∧ usernameExists db p.username = true
          · simp [verify_email, increment_attempts, hg, h10, hcode, hmail, huser,
              get_pending_delete_self]
          · simp [verify_email, increment_attempts, hg, h10, hcode, hmail, huser,
              verifyCreate] at hfail
      · simp [verify_email, increment_attempts, hg, h10, hcode] at hfail

theorem c4_terminal_failure_deletes_witness :
    get_pending_registration
      (verify_email []
        (store_pending_registration emptyCache 0 "r1"
          ⟨"a@x.com", "A", "", "", ⟨"werkzeug", "pw"⟩, ⟨"r1", "111111"⟩, 10⟩ 15)
        0 ⟨"r1", "000000"⟩).2.1 0 "r1" = none :=
  c4_terminal_failure_deletes []
    (store_pending_registration emptyCache 0 "r1"
      ⟨"a@x.com", "A", "", "", ⟨"werkzeug", "pw"⟩, ⟨"r1", "111111"⟩, 10⟩ 15)
    0 ⟨"r1", "000000"⟩ (Or.inl (by decide))

/-- The cache state after `k` successive `verify_email` calls against `rid`,
the i-th call submitting `codes i`, all at time `now` against durable store
`db`. -/
def wrongGuessCache (db : Db) (c : Cache) (now : Nat) (rid : String)
    (codes : Nat → String) : Nat → Cache
  | 0 => c
  | k + 1 => (verify_email db (wrongGuessCache db c now rid codes k) now
      ⟨rid, codes k⟩).2.1

/-- The result of the (k+1)-th `verify_email` call in that sequence. -/
def wrongGuessResult (db : Db) (c : Cache) (now : Nat) (rid : String)
    (codes : Nat → String) (k : Nat) : ApiResult :=
  (verify_email db (wrongGuessCache db c now rid codes k) now ⟨rid, codes k⟩).2.2

/-- C1: starting from a live pending registration with `attempts = 0`, a
sequence of `verify_email` calls each submitting a wrongly-hashing code keeps
the record alive with `attempts = k` after `k ≤ 10` calls (so the counter is
monotonically non-decreasing until deletion), each of the first 10 calls fails
with "invalid code", the 11th call fails with the too-many-attempts error, and
after it any lookup of the registration id reports the record absent. -/
theorem c1_attempt_ceiling (db : Db) (c : Cache) (now : Nat) (rid : String)
    (codes : Nat → String) (p : PendingRegistration)
    (hget : get_pending_registration c now rid = some p)
    (h0 : p.attempts = 0)
    (hwrong : ∀ i, i ≤ 10 → hash_code (codes i) rid ≠ p.code_hash) :
    (∀ k, k ≤ 10 →
      get_pending_registration (wrongGuessCache db c now rid codes k) now rid =
        some { p with attempts := k }) ∧
    (∀ k, k < 10 → wrongGuessResult db c now rid codes k = .err "invalid code" 400) ∧
    wrongGuessResult db c now rid codes 10 = .err "too many attempts" 429 ∧
    get_pending_registration (wrongGuessCache db c now rid codes 11) now rid = none := by
  have inv : ∀ k, k ≤ 10 →
      get_pending_registration (wrongGuessCache db c now rid codes k) now rid =
        some { p with attempts := k } := by
    intro k
    induction k with
    | zero =>
      intro _
      have hp : ({ p with attempts := 0 } : PendingRegistration) = p := by
        rw [← h0]
      rw [wrongGuessCache, hp]
      exact hget
    | succ k ih =>
      intro hk
      have hk10 : k ≤ 10 := by omega
      have hstep := verify_email_wrong_code db (wrongGuessCache db c now rid codes k)
        now ⟨rid, codes k⟩ { p with attempts := k } (ih hk10)
        (show k + 1 ≤ 10 by omega) (Ne.symm (hwrong k hk10))
      rw [wrongGuessCache, hstep]
      have hnow : now < now + 60 * 15 := by omega
      simp [get_pending_store_self (wrongGuessCache db c now rid codes k) now now rid
        { p with attempts := k + 1 } 15 (by omega), hnow]
  refine ⟨inv, ?_, ?_, ?_⟩
  · intro k hk
    have hstep := verify_email_wrong_code db (wrongGuessCache db c now rid codes k)
      now ⟨rid, codes k⟩ { p with attempts := k } (inv k (by omega))
      (show k + 1 ≤ 10 by omega) (Ne.symm (hwrong k (by omega)))
    rw [wrongGuessResult, hstep]
  · exact (verify_email_ceiling db (wrongGuessCache db c now rid codes 10) now
      ⟨rid, codes 10⟩ { p with attempts := 10 } (inv 10 (by omega))
      (show 10 ≤ (10 : Nat) by omega)).1
  · rw [wrongGuessCache]
    exact (verify_email_ceiling db (wrongGuessCache db c now rid codes 10) now
      ⟨rid, codes 10⟩ { p with attempts := 10 } (inv 10 (by omega))
      (show 10 ≤ (10 : Nat) by omega)).2

theorem c1_attempt_ceiling_witness :
    wrongGuessResult []
      (store_pending_registration emptyCache 0 "r1"
        ⟨"a@x.com", "A", "", "", ⟨"werkzeug", "pw"⟩, ⟨"r1", "123456"⟩, 0⟩ 15)
      0 "r1" (fun _ => "000000") 10 = .err "too many attempts" 429 ∧
    get_pending_registration
      (wrongGuessCache []
        (store_pending_registration emptyCache 0 "r1"
          ⟨"a@x.com", "A", "", "", ⟨"werkzeug", "pw"⟩, ⟨"r1", "123456"⟩, 0⟩ 15)
        0 "r1" (fun _ => "000000") 11) 0 "r1" = none :=
  ⟨(c1_attempt_ceiling []
      (store_pending_registration emptyCache 0 "r1"
        ⟨"a@x.com", "A", "", "", ⟨"werkzeug", "pw"⟩, ⟨"r1", "123456"⟩, 0⟩ 15)
      0 "r1" (fun _ => "000000")
      ⟨"a@x.com", "A", "", "", ⟨"werkzeug", "pw"⟩, ⟨"r1", "123456"⟩, 0⟩
      (by decide) (by decide) (by decide)).2.2.1,
   (c1_attempt_ceiling []
      (store_pending_registration emptyCache 0 "r1"
        ⟨"a@x.com", "A", "", "", ⟨"werkzeug", "pw"⟩, ⟨"r1", "123456"⟩, 0⟩ 15)
      0 "r1" (fun _ => "000000")
      ⟨"a@x.com", "A", "", "", ⟨"werkzeug", "pw"⟩, ⟨"r1", "123456"⟩, 0⟩
      (by decide) (by decide) (by decide)).2.2.2⟩

/-- C2: evaluation at the failing input.  Starting from a pending registration
with `attempts = 0` and no intervening verify calls, four successive
`resend_verification_code` calls ALL succeed — in particular the 4th does not
fail with "maximum resend attempts exceeded" — because the source checks
`pending.attempts >= 3` but never increments any counter on a resend (the
inline comment "Rate limit: allow max 3 resends" notwithstanding). -/
theorem c2_fourth_resend_succeeds :
    (resend_verification_code
      (resend_verification_code
        (resend_verification_code
          (resend_verification_code
            (store_pending_registration emptyCache 0 "r1"
              ⟨"a@x.com", "A", "", "", ⟨"werkzeug", "pw"⟩, ⟨"r1", "123456"⟩, 0⟩ 15)
            0 "r1" "111111").1
          0 "r1" "222222").1
        0 "r1" "333333").1
      0 "r1" "444444").2 = .okGeneric "Verification code resent" ∧
    (resend_verification_code
      (resend_verification_code
        (resend_verification_code
          (resend_verification_code
            (store_pending_registration emptyCache 0 "r1"
              ⟨"a@x.com", "A", "", "", ⟨"werkzeug", "pw"⟩, ⟨"r1", "123456"⟩, 0⟩ 15)
            0 "r1" "111111").1
          0 "r1" "222222").1
        0 "r1" "333333").1
      0 "r1" "444444").2 ≠ .err "maximum resend attempts exceeded" 429 := by
  decide

/-- C3 counterexample: with no durable user holding the email, a second
`sign_up` with the same email before the first registration is verified
SUCCEEDS — it does not fail with the Conflict error the claim requires. -/
theorem c3_counterexample_second_signup_not_conflict :
    (sign_up []
      (sign_up [] emptyCache 0 ⟨"a@x.com", "A", "", "", "secret1"⟩ "111111" "r1").1
      0 ⟨"a@x.com", "A", "", "", "secret1"⟩ "222222" "r2").2 =
      .okSignUp "Verification code sent successfully" "r2" ∧
    (sign_up []
      (sign_up [] emptyCache 0 ⟨"a@x.com", "A", "", "", "secret1"⟩ "111111" "r1").1
      0 ⟨"a@x.com", "A", "", "", "secret1"⟩ "222222" "r2").2 ≠
      .err "Email already taken" 409 := by
  decide

/-- C3 (amended): `sign_up` checks uniqueness only against the durable user
table, so a second call with the same email before the first registration is
verified also succeeds, storing an independent pending record under its own
registration id and leaving the first pending record unchanged; the Conflict
error "Email already taken" arises precisely when a durable user with that
email already exists. -/
theorem c3_second_signup_succeeds (db : Db) (c : Cache) (now : Nat)
    (pl : SignUpPayload) (code1 code2 r1 r2 : String)
    (hne : r2 ≠ r1)
    (hemail : lowerString pl.email ≠ "")
    (hfn : pl.firstname ≠ "")
    (hpw : pl.password ≠ "")
    (hdb : emailExists db (lowerString pl.email) = false)
    (huser : ¬(pl.username ≠ "" ∧ usernameExists db pl.username = true)) :
    (sign_up db (sign_up db c now pl code1 r1).1 now pl code2 r2).2 =
      .okSignUp "Verification code sent successfully" r2 ∧
    get_pending_registration
        (sign_up db (sign_up db c now pl code1 r1).1 now pl code2 r2).1 now r1 =
      get_pending_registration (sign_up db c now pl code1 r1).1 now r1 ∧
    (∀ db2 : Db, emailExists db2 (lowerString pl.email) = true →
      sign_up db2 c now pl code1 r1 = (c, .err "Email already taken" 409)) := by
  have hfirst : sign_up db c now pl code1 r1 =
      (store_pending_registration c now r1
        (buildPending pl (lowerString pl.email) (hash_code code1 r1)) 15,
       .okSignUp "Verification code sent successfully" r1) := by
    simp [sign_up, hemail, hfn, hpw, hdb, huser]
  have hsecond : sign_up db (sign_up db c now pl code1 r1).1 now pl code2 r2 =
      (store_pending_registration (sign_up db c now pl code1 r1).1 now r2
        (buildPending pl (lowerString pl.email) (hash_code code2 r2)) 15,
       .okSignUp "Verification code sent successfully" r2) := by
    simp [sign_up, hemail, hfn, hpw, hdb, huser]
  refine ⟨by rw [hsecond], ?_, ?_⟩
  · rw [hsecond]
    exact get_pending_store_other (sign_up db c now pl code1 r1).1 now now r2 r1
      (buildPending pl (lowerString pl.email) (hash_code code2 r2)) 15 (Ne.symm hne)
  · intro db2 hdb2
    simp [sign_up, hemail, hfn, hpw, hdb2]

theorem c3_second_signup_succeeds_witness :
    get_pending_registration
        (sign_up []
          (sign_up [] emptyCache 0 ⟨"a@x.com", "A", "", "", "secret1"⟩ "111111" "r1").1
          0 ⟨"a@x.com", "A", "", "", "secret1"⟩ "222222" "r2").1 0 "r1" =
      get_pending_registration
        (sign_up [] emptyCache 0 ⟨"a@x.com", "A", "", "", "secret1"⟩ "111111" "r1").1
        0 "r1" :=
  (c3_second_signup_succeeds [] emptyCache 0 ⟨"a@x.com", "A", "", "", "secret1"⟩
    "111111" "222222" "r1" "r2" (by decide) (by decide) (by decide) (by decide)
    (by decide) (by decide)).2.1

/-! ### Plaintext-leak analysis (for the secrecy claim)

Every string the workflow can place in the cache or in a response is either a
program literal, a plain data field, or the salt of a digest; the preimage held
inside a `Digest` is exactly what the real system stores only as a hash.  The
collectors below gather all plain (non-preimage) strings of a value, and
`NoPlain x c` says the string `x` occurs nowhere in the cache outside digest
preimages. -/

def Digest.plainStrings (d : Digest) : List String := [d.salt]

def JVal.plainStrings : JVal → List String
  | .jstr s => [s]
  | .jnum _ => []
  | .jdig d => d.plainStrings

def jsonPlainStrings : Json → List String
  | [] => []
  | p :: rest => p.1 :: (p.2.plainStrings ++ jsonPlainStrings rest)

def PendingRegistration.plainStrings (p : PendingRegistration) : List String :=
  [p.email, p.firstname, p.lastname, p.username] ++
    p.password_hash.plainStrings ++ p.code_hash.plainStrings

def CacheVal.plainStrings : CacheVal → List String
  | .vjson j => jsonPlainStrings j
  | .vnat _ => []
  | .vpend p => p.plainStrings

def CacheKey.plainStrings : CacheKey → List String
  | .pendingReg r => [r]
  | .pwdReset d => d.plainStrings
  | .pwdResetRate e => [e]

def ApiResult.plainStrings : ApiResult → List String
  | .err m _ => [m]
  | .okSignUp m r => [m, r]
  | .okVerify m t e u => [m, t.identity_email, e, u]
  | .okGeneric m => [m]

/-- The string `x` occurs nowhere in the cache outside digest preimages. -/
def NoPlain (x : String) (c : Cache) : Prop :=
  ∀ e ∈ c, x ∉ e.key.plainStrings ∧ x ∉ e.val.plainStrings

instance (x : String) (c : Cache) : Decidable (NoPlain x c) := by
  unfold NoPlain; infer_instance

/-- Every fixed string literal appearing in the workflow operations: response
messages, the JSON field names, and the password-digest salt tag. -/
def fixedLiterals : List String :=
  ["email is empty", "firstname is empty", "password is empty", "Email already taken",
   "Username already taken", "Verification code sent successfully",
   "invalid or expired verification", "too many attempts", "invalid code",
   "Email verified and account created", "invalid or expired registration",
   "maximum resend attempts exceeded", "Verification code resent",
   "If the email exists, a reset link has been sent", "invalid or expired token",
   "Token is valid", "Password reset successfully",
   "user_id", "email", "token_hash", "attempts", "werkzeug"]

theorem cacheGetEntry_key (c : Cache) (k : CacheKey) (e : CacheEntry)
    (h : cacheGetEntry c k = some e) : e.key = k := by
  induction c with
  | nil => simp [cacheGetEntry] at h
  | cons e2 rest ih =>
    by_cases he : e2.key = k
    · simp [cacheGetEntry, he] at h
      rw [← h]
      exact he
    · simp [cacheGetEntry, he] at h
      exact ih h

theorem cacheGetEntry_mem (c : Cache) (k : CacheKey) (e : CacheEntry)
    (h : cacheGetEntry c k = some e) : e ∈ c := by
  induction c with
  | nil => simp [cacheGetEntry] at h
  | cons e2 rest ih =>
    by_cases he : e2.key = k
    · simp [cacheGetEntry, he] at h
      simp [← h]
    · simp [cacheGetEntry, he] at h
      simp [ih h]

theorem noPlain_of_get (x : String) (c : Cache) (now : Nat) (k : CacheKey)
    (v : CacheVal) (h : NoPlain x c) (hg : cacheGet c now k = some v) :
    x ∉ k.plainStrings ∧ x ∉ v.plainStrings := by
  unfold cacheGet at hg
  cases he : cacheGetEntry c k with
  | none => rw [he] at hg; simp at hg
  | some e =>
    rw [he] at hg
    by_cases hexp : e.expiresAt = 0 ∨ now < e.expiresAt
    · simp [hexp] at hg
      have hmem := h e (cacheGetEntry_mem c k e he)
      rw [← cacheGetEntry_key c k e he, ← hg]
      exact hmem
    · simp [hexp] at hg

theorem mem_cacheDelete (c : Cache) (k : CacheKey) (e : CacheEntry)
    (h : e ∈ cacheDelete c k) : e ∈ c := by
  induction c with
  | nil => simp [cacheDelete] at h
  | cons e2 rest ih =>
    by_cases he : e2.key = k
    · simp [cacheDelete, he] at h
      simp [ih h]
    · simp [cacheDelete, he] at h
      rcases h with h | h
      · simp [h]
      · simp [ih h]

theorem noPlain_delete (x : String) (c : Cache) (k : CacheKey)
    (h : NoPlain x c) : NoPlain x (cacheDelete c k) :=
  fun e he => h e (mem_cacheDelete c k e he)

theorem noPlain_set (x : String) (c : Cache) (now : Nat) (k : CacheKey)
    (v : CacheVal) (ttl : Nat) (h : NoPlain x c)
    (hk : x ∉ k.plainStrings) (hv : x ∉ v.plainStrings) :
    NoPlain x (cacheSet c now k v ttl) := by
  intro e he
  rcases List.mem_cons.mp he with h1 | h1
  · rw [h1]; exact ⟨hk, hv⟩
  · exact noPlain_delete x c k h e h1

theorem noPlain_get_pending (x : String) (c : Cache) (now : Nat) (rid : String)
    (p : PendingRegistration) (h : NoPlain x c)
    (hg : get_pending_registration c now rid = some p) :
    x ≠ rid ∧ x ∉ p.plainStrings := by
  unfold get_pending_registration at hg
  cases hcg : cacheGet c now (pendingKey rid) with
  | none => rw [hcg] at hg; simp at hg
  | some v =>
    rw [hcg] at hg
    cases v with
    | vjson j => simp at hg
    | vnat n => simp at hg
    | vpend p2 =>
      simp at hg
      have := noPlain_of_get x c now (pendingKey rid) (.vpend p2) h hcg
      rw [hg] at this
      refine ⟨?_, this.2⟩
      have hk := this.1
      simp [pendingKey, CacheKey.plainStrings] at hk
      exact hk

theorem get_reset_inv (c : Cache) (now : Nat) (th : Digest) (r : PasswordResetToken)
    (hg : get_password_reset_token c now th = some r) :
    ∃ j, cacheGet c now (pwdResetKey th) = some (.vjson j) ∧
      PasswordResetToken.from_json j = some r := by
  unfold get_password_reset_token at hg
  cases hcg : cacheGet c now (pwdResetKey th) with
  | none => rw [hcg] at hg; simp at hg
  | some v =>
    rw [hcg] at hg
    cases v with
    | vjson j => exact ⟨j, rfl, hg⟩
    | vnat n => simp at hg
    | vpend p => simp at hg

theorem jlookup_plain_sub (j : Json) (k : String) (v : JVal)
    (h : jlookup j k = some v) : ∀ s ∈ v.plainStrings, s ∈ jsonPlainStrings j := by
  induction j with
  | nil => simp [jlookup] at h
  | cons p rest ih =>
    by_cases hk : p.1 = k
    · simp [jlookup, hk] at h
      intro s hs
      rw [← h] at hs
      simp [jsonPlainStrings, hs]
    · simp [jlookup, hk] at h
      intro s hs
      simp [jsonPlainStrings, ih h s hs]

theorem from_json_fields (j : Json) (r : PasswordResetToken)
    (h : PasswordResetToken.from_json j = some r) :
    jlookup j "user_id" = some (.jstr r.user_id) ∧
    jlookup j "email" = some (.jstr r.email) ∧
    jlookup j "token_hash" = some (.jdig r.token_hash) := by
  unfold PasswordResetToken.from_json at h
  by_cases hall : (j.map Prod.fst).all (fun k => decide (k ∈ resetFieldNames)) = true
  · rw [if_pos hall] at h
    cases h1 : jlookup j "user_id" with
    | none => rw [h1] at h; simp at h
    | some v1 =>
      rw [h1] at h
      cases v1 with
      | jnum n => simp at h
      | jdig d => simp at h
      | jstr u =>
        cases h2 : jlookup j "email" with
        | none => rw [h2] at h; simp at h
        | some v2 =>
          rw [h2] at h
          cases v2 with
          | jnum n => simp at h
          | jdig d => simp at h
          | jstr e =>
            cases h3 : jlookup j "token_hash" with
            | none => rw [h3] at h; simp at h
            | some v3 =>
              rw [h3] at h
              cases v3 with
              | jstr s => simp at h
              | jnum n => simp at h
              | jdig t =>
                cases h4 : jlookup j "attempts" with
                | none =>
                  rw [h4] at h
                  have h5 : (⟨u, e, t, 0⟩ : PasswordResetToken) = r := by
                    simpa using h
                  subst h5
                  exact ⟨rfl, rfl, rfl⟩
                | some v4 =>
                  rw [h4] at h
                  cases v4 with
                  | jstr s => simp at h
                  | jdig d => simp at h
                  | jnum a =>
                    have h5 : (⟨u, e, t, a⟩ : PasswordResetToken) = r := by
                      simpa using h
                    subst h5
                    exact ⟨rfl, rfl, rfl⟩
  · rw [if_neg hall] at h
    simp at h

/-- The plain strings of the re-serialized record produced by an attempt
increment stay within the literals and the plain strings of the stored JSON. -/
theorem noPlain_reset_restore (x : String) (j : Json) (r : PasswordResetToken)
    (a : Nat) (hx : x ∉ jsonPlainStrings j) (hlit : x ∉ fixedLiterals)
    (h : PasswordResetToken.from_json j = some r) :
    x ∉ jsonPlainStrings (PasswordResetToken.to_json { r with attempts := a }) := by
  obtain ⟨h1, h2, h3⟩ := from_json_fields j r h
  have hu : r.user_id ∈ jsonPlainStrings j :=
    jlookup_plain_sub j "user_id" _ h1 r.user_id (by simp [JVal.plainStrings])
  have he : r.email ∈ jsonPlainStrings j :=
    jlookup_plain_sub j "email" _ h2 r.email (by simp [JVal.plainStrings])
  have ht : r.token_hash.salt ∈ jsonPlainStrings j :=
    jlookup_plain_sub j "token_hash" _ h3 r.token_hash.salt
      (by simp [JVal.plainStrings, Digest.plainStrings])
  simp only [fixedLiterals, List.mem_cons, List.mem_singleton] at hlit
  push_neg at hlit
  simp [PasswordResetToken.to_json, jsonPlainStrings, JVal.plainStrings,
    Digest.plainStrings, hlit]
  refine ⟨fun hc => hx (hc ▸ hu), fun hc => hx (hc ▸ he), fun hc => hx (hc ▸ ht)⟩

theorem not_eq_of_not_mem {x s : String} {l : List String} (h : x ∉ l) (hs : s ∈ l) :
    x ≠ s :=
  fun he => h (he ▸ hs)

/-- `sign_up` never places the plaintext code in the cache or the response; on
success the stored record carries only its salted digest. -/
theorem signup_no_leak (db : Db) (c : Cache) (now : Nat) (pl : SignUpPayload)
    (code reg_id : String)
    (hlit : code ∉ fixedLiterals)
    (hc : NoPlain code c)
    (hextras : code ∉ [lowerString pl.email, pl.firstname, pl.lastname,
      pl.username, reg_id]) :
    NoPlain code (sign_up db c now pl code reg_id).1 ∧
    code ∉ ((sign_up db c now pl code reg_id).2).plainStrings ∧
    ((sign_up db c now pl code reg_id).2 =
        .okSignUp "Verification code sent successfully" reg_id →
      get_pending_registration (sign_up db c now pl code reg_id).1 now reg_id =
        some (buildPending pl (lowerString pl.email) (hash_code code reg_id))) := by
  simp only [List.mem_cons, List.not_mem_nil, or_false, not_or] at hextras
  obtain ⟨hx1, hx2, hx3, hx4, hx5⟩ := hextras
  have hm1 : code ≠ "email is empty" := not_eq_of_not_mem hlit (by decide)
  have hm2 : code ≠ "firstname is empty" := not_eq_of_not_mem hlit (by decide)
  have hm3 : code ≠ "password is empty" := not_eq_of_not_mem hlit (by decide)
  have hm4 : code ≠ "Email already taken" := not_eq_of_not_mem hlit (by decide)
  have hm5 : code ≠ "Username already taken" := not_eq_of_not_mem hlit (by decide)
  have hm6 : code ≠ "Verification code sent successfully" :=
    not_eq_of_not_mem hlit (by decide)
  have hwz : code ≠ "werkzeug" := not_eq_of_not_mem hlit (by decide)
  by_cases he1 : lowerString pl.email = ""
  · have heq : sign_up db c now pl code reg_id = (c, .err "email is empty" 400) := by
      simp [sign_up, he1]
    rw [heq]
    exact ⟨hc, by simp [ApiResult.plainStrings, hm1], by intro hok; simp at hok⟩
  · by_cases he2 : pl.firstname = ""
    · have heq : sign_up db c now pl code reg_id = (c, .err "firstname is empty" 400) := by
        simp [sign_up, he1, he2]
      rw [heq]
      exact ⟨hc, by simp [ApiResult.plainStrings, hm2], by intro hok; simp at hok⟩
    · by_cases he3 : pl.password = ""
      · have heq : sign_up db c now pl code reg_id = (c, .err "password is empty" 400) := by
          simp [sign_up, he1, he2, he3]
        rw [heq]
        exact ⟨hc, by simp [ApiResult.plainStrings, hm3], by intro hok; simp at hok⟩
      · by_cases he4 : emailExists db (lowerString pl.email) = true
        · have heq : sign_up db c now pl code reg_id =
              (c, .err "Email already taken" 409) := by
            simp [sign_up, he1, he2, he3, he4]
          rw [heq]
          exact ⟨hc, by simp [ApiResult.plainStrings, hm4], by intro hok; simp at hok⟩
        · by_cases he5 : pl.username ≠ "" ∧ usernameExists db pl.username = true
          · have heq : sign_up db c now pl code reg_id =
                (c, .err "Username already taken" 409) := by
              simp [sign_up, he1, he2, he3, he4, he5]
            rw [heq]
            exact ⟨hc, by simp [ApiResult.plainStrings, hm5], by intro hok; simp at hok⟩
          · have heq : sign_up db c now pl code reg_id =
                (store_pending_registration c now reg_id
                  (buildPending pl (lowerString pl.email) (hash_code code reg_id)) 15,
                 .okSignUp "Verification code sent successfully" reg_id) := by
              simp [sign_up, he1, he2, he3, he4, he5]
            rw [heq]
            refine ⟨?_, ?_, ?_⟩
            · show NoPlain code (cacheSet c now (pendingKey reg_id)
                (.vpend (buildPending pl (lowerString pl.email) (hash_code code reg_id)))
                (60 * 15))
              refine noPlain_set code c now _ _ _ hc ?_ ?_
              · simp [pendingKey, CacheKey.plainStrings, hx5]
              · simp [CacheVal.plainStrings, PendingRegistration.plainStrings,
                  buildPending, hashPassword, hash_code, Digest.plainStrings,
                  hx1, hx2, hx3, hx4, hx5, hwz]
            · simp [ApiResult.plainStrings, hx5, hm6]
            · intro _
              have hnow : now < now + 60 * 15 := by omega
              simp [get_pending_store_self c now now reg_id _ 15 (by omega), hnow]

/-- `verify_email` never places the submitted code in the cache or response. -/
theorem verify_no_leak (db : Db) (c : Cache) (now : Nat) (payload : VerifyPayload)
    (hlit : payload.code ∉ fixedLiterals)
    (hc : NoPlain payload.code c) :
    NoPlain payload.code (verify_email db c now payload).2.1 ∧
    payload.code ∉ ((verify_email db c now payload).2.2).plainStrings := by
  have hm1 : payload.code ≠ "invalid or expired verification" :=
    not_eq_of_not_mem hlit (by decide)
  have hm2 : payload.code ≠ "too many attempts" := not_eq_of_not_mem hlit (by decide)
  have hm3 : payload.code ≠ "invalid code" := not_eq_of_not_mem hlit (by decide)
  have hm4 : payload.code ≠ "Email already taken" := not_eq_of_not_mem hlit (by decide)
  have hm5 : payload.code ≠ "Username already taken" := not_eq_of_not_mem hlit (by decide)
  have hm6 : payload.code ≠ "Email verified and account created" :=
    not_eq_of_not_mem hlit (by decide)
  cases hg : get_pending_registration c now payload.reg_id with
  | none =>
    have heq : verify_email db c now payload =
        (db, c, .err "invalid or expired verification" 400) := by
      simp [verify_email, hg]
    rw [heq]
    exact ⟨hc, by simp [ApiResult.plainStrings, hm1]⟩
  | some p =>
    obtain ⟨hrid, hp⟩ := noPlain_get_pending payload.code c now payload.reg_id p hc hg
    simp [PendingRegistration.plainStrings, Digest.plainStrings] at hp
    obtain ⟨hp1, hp2, hp3, hp4, hp5, hp6⟩ := hp
    have hstore : NoPlain payload.code
        (store_pending_registration c now payload.reg_id
          { p with attempts := p.attempts + 1 } 15) := by
      show NoPlain payload.code (cacheSet c now (pendingKey payload.reg_id)
        (.vpend { p with attempts := p.attempts + 1 }) (60 * 15))
      refine noPlain_set _ _ _ _ _ _ hc ?_ ?_
      · simp [pendingKey, CacheKey.plainStrings, hrid]
      · simp [CacheVal.plainStrings, PendingRegistration.plainStrings,
          Digest.plainStrings, hp1, hp2, hp3, hp4, hp5, hp6]
    by_cases h10 : 10 < p.attempts + 1
    · have heq : verify_email db c now payload =
          (db, delete_pending_registration (store_pending_registration c now
            payload.reg_id { p with attempts := p.attempts + 1 } 15) payload.reg_id,
           .err "too many attempts" 429) := by
        simp [verify_email, increment_attempts, hg, h10]
      rw [heq]
      exact ⟨noPlain_delete _ _ _ hstore, by simp [ApiResult.plainStrings, hm2]⟩
    · by_cases hcode : p.code_hash = hash_code payload.code payload.reg_id
      · by_cases hmail : emailExists db p.email = true
        · have heq : verify_email db c now payload =
              (db, delete_pending_registration (store_pending_registration c now
                payload.reg_id { p with attempts := p.attempts + 1 } 15) payload.reg_id,
               .err "Email already taken" 409) := by
            simp [verify_email, increment_attempts, hg, h10, hcode, hmail]
          rw [heq]
          exact ⟨noPlain_delete _ _ _ hstore, by simp [ApiResult.plainStrings, hm4]⟩
        · by_cases huser : p.username ≠ "" ∧ usernameExists db p.username = true
          · have heq : verify_email db c now payload =
                (db, delete_pending_registration (store_pending_registration c now
                  payload.reg_id { p with attempts := p.attempts + 1 } 15) payload.reg_id,
                 .err "Username already taken" 409) := by
              simp [verify_email, increment_attempts, hg, h10, hcode, hmail, huser]
            rw [heq]
            exact ⟨noPlain_delete _ _ _ hstore, by simp [ApiResult.plainStrings, hm5]⟩
          · have heq : verify_email db c now payload =
                (db ++ [⟨p.email, p.username, p.password_hash⟩],
                 delete_pending_registration (store_pending_registration c now
                   payload.reg_id { p with attempts := p.attempts + 1 } 15) payload.reg_id,
                 .okVerify "Email verified and account created" ⟨p.email⟩
                   p.email p.username) := by
              simp [verify_email, increment_attempts, hg, h10, hcode, hmail, huser,
                verifyCreate]
            rw [heq]
            exact ⟨noPlain_delete _ _ _ hstore,
              by simp [ApiResult.plainStrings, hm6, hp1, hp4]⟩
      · have heq : verify_email db c now payload =
            (db, store_pending_registration c now payload.reg_id
              { p with attempts := p.attempts + 1 } 15, .err "invalid code" 400) := by
          simp [verify_email, increment_attempts, hg, h10, hcode]
        rw [heq]
        exact ⟨hstore, by simp [ApiResult.plainStrings, hm3]⟩

/-- `resend_verification_code` never places the new code in the cache or
response outside its digest. -/
theorem resend_no_leak (c : Cache) (now : Nat) (rid new_code : String)
    (hlit : new_code ∉ fixedLiterals) (hc : NoPlain new_code c) :
    NoPlain new_code (resend_verification_code c now rid new_code).1 ∧
    new_code ∉ ((resend_verification_code c now rid new_code).2).plainStrings := by
  have hm1 : new_code ≠ "invalid or expired registration" :=
    not_eq_of_not_mem hlit (by decide)
  have hm2 : new_code ≠ "maximum resend attempts exceeded" :=
    not_eq_of_not_mem hlit (by decide)
  have hm3 : new_code ≠ "Verification code resent" := not_eq_of_not_mem hlit (by decide)
  cases hg : get_pending_registration c now rid with
  | none =>
    have heq : resend_verification_code c now rid new_code =
        (c, .err "invalid or expired registration" 400) := by
      simp [resend_verification_code, hg]
    rw [heq]
    exact ⟨hc, by simp [ApiResult.plainStrings, hm1]⟩
  | some p =>
    obtain ⟨hrid, hp⟩ := noPlain_get_pending new_code c now rid p hc hg
    simp [PendingRegistration.plainStrings, Digest.plainStrings] at hp
    obtain ⟨hp1, hp2, hp3, hp4, hp5, hp6⟩ := hp
    by_cases h3 : 3 ≤ p.attempts
    · have heq : resend_verification_code c now rid new_code =
          (c, .err "maximum resend attempts exceeded" 429) := by
        simp [resend_verification_code, hg, h3]
      rw [heq]
      exact ⟨hc, by simp [ApiResult.plainStrings, hm2]⟩
    · have heq : resend_verification_code c now rid new_code =
          (store_pending_registration c now rid
            { p with code_hash := hash_code new_code rid } 15,
           .okGeneric "Verification code resent") := by
        simp [resend_verification_code, hg, h3]
      rw [heq]
      refine ⟨?_, by simp [ApiResult.plainStrings, hm3]⟩
      show NoPlain new_code (cacheSet c now (pendingKey rid)
        (.vpend { p with code_hash := hash_code new_code rid }) (60 * 15))
      refine noPlain_set _ _ _ _ _ _ hc ?_ ?_
      · simp [pendingKey, CacheKey.plainStrings, hrid]
      · simp [CacheVal.plainStrings, PendingRegistration.plainStrings,
          Digest.plainStrings, hash_code, hp1, hp2, hp3, hp4, hp5, hrid]

/-- `forgot_password` never places the reset token in the cache or response
outside its digest. -/
theorem forgot_no_leak (db : Db) (c : Cache) (now : Nat) (email token : String)
    (hlit : token ∉ fixedLiterals) (hne0 : token ≠ "") (hc : NoPlain token c)
    (hem : token ≠ email) :
    NoPlain token (forgot_password db c now email token).1 ∧
    token ∉ ((forgot_password db c now email token).2).plainStrings := by
  have hm1 : token ≠ "If the email exists, a reset link has been sent" :=
    not_eq_of_not_mem hlit (by decide)
  have huid : token ≠ "user_id" := not_eq_of_not_mem hlit (by decide)
  have hema : token ≠ "email" := not_eq_of_not_mem hlit (by decide)
  have hth : token ≠ "token_hash" := not_eq_of_not_mem hlit (by decide)
  have hat : token ≠ "attempts" := not_eq_of_not_mem hlit (by decide)
  by_cases hex : emailExists db email = true
  · have heq : forgot_password db c now email token =
        (store_password_reset_token c now (hash_token token)
          ⟨email, email, hash_token token, 0⟩ 30,
         .okGeneric "If the email exists, a reset link has been sent") := by
      simp [forgot_password, hex]
    rw [heq]
    refine ⟨?_, by simp [ApiResult.plainStrings, hm1]⟩
    show NoPlain token (cacheSet c now (pwdResetKey (hash_token token))
      (.vjson (PasswordResetToken.to_json ⟨email, email, hash_token token, 0⟩)) (60 * 30))
    refine noPlain_set _ _ _ _ _ _ hc ?_ ?_
    · simp [pwdResetKey, CacheKey.plainStrings, Digest.plainStrings, hash_token, hne0]
    · simp [CacheVal.plainStrings, PasswordResetToken.to_json, jsonPlainStrings,
        JVal.plainStrings, Digest.plainStrings, hash_token, huid, hema, hth, hat,
        hem, hne0]
  · have heq : forgot_password db c now email token =
        (c, .okGeneric "If the email exists, a reset link has been sent") := by
      simp [forgot_password, hex]
    rw [heq]
    exact ⟨hc, by simp [ApiResult.plainStrings, hm1]⟩

/-- `validate_reset_token` never places the presented token in the cache or
response outside its digest. -/
theorem validate_no_leak (c : Cache) (now : Nat) (token : String)
    (hlit : token ∉ fixedLiterals) (hc : NoPlain token c) :
    NoPlain token (validate_reset_token c now token).1 ∧
    token ∉ ((validate_reset_token c now token).2).plainStrings := by
  have hm1 : token ≠ "invalid or expired token" := not_eq_of_not_mem hlit (by decide)
  have hm2 : token ≠ "too many attempts" := not_eq_of_not_mem hlit (by decide)
  have hm3 : token ≠ "Token is valid" := not_eq_of_not_mem hlit (by decide)
  cases hg : get_password_reset_token c now (hash_token token) with
  | none =>
    have heq : validate_reset_token c now token =
        (c, .err "invalid or expired token" 400) := by
      simp [validate_reset_token, hg]
    rw [heq]
    exact ⟨hc, by simp [ApiResult.plainStrings, hm1]⟩
  | some r =>
    obtain ⟨j, hcg, hfj⟩ := get_reset_inv c now (hash_token token) r hg
    have hkv := noPlain_of_get token c now (pwdResetKey (hash_token token)) (.vjson j) hc hcg
    have hstore : NoPlain token (store_password_reset_token c now (hash_token token)
        { r with attempts := r.attempts + 1 } 30) := by
      show NoPlain token (cacheSet c now (pwdResetKey (hash_token token))
        (.vjson (PasswordResetToken.to_json { r with attempts := r.attempts + 1 }))
        (60 * 30))
      refine noPlain_set _ _ _ _ _ _ hc hkv.1 ?_
      show token ∉ jsonPlainStrings
        (PasswordResetToken.to_json { r with attempts := r.attempts + 1 })
      exact noPlain_reset_restore token j r (r.attempts + 1) hkv.2 hlit hfj
    by_cases h10 : 10 < r.attempts + 1
    · have heq : validate_reset_token c now token =
          (delete_password_reset_token (store_password_reset_token c now
            (hash_token token) { r with attempts := r.attempts + 1 } 30)
            (hash_token token),
           .err "too many attempts" 429) := by
        simp [validate_reset_token, increment_token_attempts, hg, h10]
      rw [heq]
      exact ⟨noPlain_delete _ _ _ hstore, by simp [ApiResult.plainStrings, hm2]⟩
    · have heq : validate_reset_token c now token =
          (store_password_reset_token c now (hash_token token)
            { r with attempts := r.attempts + 1 } 30, .okGeneric "Token is valid") := by
        simp [validate_reset_token, increment_token_attempts, hg, h10]
      rw [heq]
      exact ⟨hstore, by simp [ApiResult.plainStrings, hm3]⟩

/-- `reset_password` never places the presented token in the cache or response
outside its digest. -/
theorem resetpw_no_leak (db : Db) (c : Cache) (now : Nat) (token new_password : String)
    (hlit : token ∉ fixedLiterals) (hc : NoPlain token c) :
    NoPlain token (reset_password db c now token new_password).2.1 ∧
    token ∉ ((reset_password db c now token new_password).2.2).plainStrings := by
  have hm1 : token ≠ "invalid or expired token" := not_eq_of_not_mem hlit (by decide)
  have hm2 : token ≠ "too many attempts" := not_eq_of_not_mem hlit (by decide)
  have hm3 : token ≠ "Password reset successfully" := not_eq_of_not_mem hlit (by decide)
  cases hg : get_password_reset_token c now (hash_token token) with
  | none =>
    have heq : reset_password db c now token new_password =
        (db, c, .err "invalid or expired token" 400) := by
      simp [reset_password, hg]
    rw [heq]
    exact ⟨hc, by simp [ApiResult.plainStrings, hm1]⟩
  | some r =>
    obtain ⟨j, hcg, hfj⟩ := get_reset_inv c now (hash_token token) r hg
    have hkv := noPlain_of_get token c now (pwdResetKey (hash_token token)) (.vjson j) hc hcg
    have hstore : NoPlain token (store_password_reset_token c now (hash_token token)
        { r with attempts := r.attempts + 1 } 30) := by
      show NoPlain token (cacheSet c now (pwdResetKey (hash_token token))
        (.vjson (PasswordResetToken.to_json { r with attempts := r.attempts + 1 }))
        (60 * 30))
      refine noPlain_set _ _ _ _ _ _ hc hkv.1 ?_
      show token ∉ jsonPlainStrings
        (PasswordResetToken.to_json { r with attempts := r.attempts + 1 })
      exact noPlain_reset_restore token j r (r.attempts + 1) hkv.2 hlit hfj
    by_cases h10 : 10 < r.attempts + 1
    · have heq : reset_password db c now token new_password =
          (db, delete_password_reset_token (store_password_reset_token c now
            (hash_token token) { r with attempts := r.attempts + 1 } 30)
            (hash_token token),
           .err "too many attempts" 429) := by
        simp [reset_password, increment_token_attempts, hg, h10]
      rw [heq]
      exact ⟨noPlain_delete _ _ _ hstore, by simp [ApiResult.plainStrings, hm2]⟩
    · have heq : reset_password db c now token new_password =
          (db.map (fun u => if u.email = r.email then
              { u with password_hash := hashPassword new_password } else u),
           reset_rate_limit (delete_password_reset_token (store_password_reset_token c
             now (hash_token token) { r with attempts := r.attempts + 1 } 30)
             (hash_token token)) r.email,
           .okGeneric "Password reset successfully") := by
        simp [reset_password, increment_token_attempts, hg, h10]
      rw [heq]
      refine ⟨?_, by simp [ApiResult.plainStrings, hm3]⟩
      show NoPlain token (cacheDelete (cacheDelete (store_password_reset_token c now
        (hash_token token) { r with attempts := r.attempts + 1 } 30)
        (pwdResetKey (hash_token token))) (rateLimitKey r.email))
      exact noPlain_delete _ _ _ (noPlain_delete _ _ _ hstore)

/-- C8: across `sign_up`, `verify_email`, `resend_verification_code` and the
password-reset operations, a fresh plaintext secret `x` (verification code or
reset token) is never written into the ephemeral store outside a digest
preimage and never included in the operation's API response; on a successful
sign_up the stored record carries only the salted digest `hash_code x reg_id`
of the code. -/
theorem c8_plaintext_secrecy (db : Db) (c : Cache) (now : Nat) (pl : SignUpPayload)
    (reg_id rid rrid email x new_password : String)
    (hlit : x ∉ fixedLiterals) (hne0 : x ≠ "") (hc : NoPlain x c)
    (hpl : x ∉ [lowerString pl.email, pl.firstname, pl.lastname, pl.username, reg_id])
    (hem : x ≠ email) :
    (NoPlain x (sign_up db c now pl x reg_id).1 ∧
     x ∉ ((sign_up db c now pl x reg_id).2).plainStrings ∧
     ((sign_up db c now pl x reg_id).2 =
         .okSignUp "Verification code sent successfully" reg_id →
       get_pending_registration (sign_up db c now pl x reg_id).1 now reg_id =
         some (buildPending pl (lowerString pl.email) (hash_code x reg_id)))) ∧
    (NoPlain x (verify_email db c now ⟨rid, x⟩).2.1 ∧
     x ∉ ((verify_email db c now ⟨rid, x⟩).2.2).plainStrings) ∧
    (NoPlain x (resend_verification_code c now rrid x).1 ∧
     x ∉ ((resend_verification_code c now rrid x).2).plainStrings) ∧
    (NoPlain x (forgot_password db c now email x).1 ∧
     x ∉ ((forgot_password db c now email x).2).plainStrings) ∧
    (NoPlain x (validate_reset_token c now x).1 ∧
     x ∉ ((validate_reset_token c now x).2).plainStrings) ∧
    (NoPlain x (reset_password db c now x new_password).2.1 ∧
     x ∉ ((reset_password db c now x new_password).2.2).plainStrings) :=
  ⟨signup_no_leak db c now pl x reg_id hlit hc hpl,
   verify_no_leak db c now ⟨rid, x⟩ hlit hc,
   resend_no_leak c now rrid x hlit hc,
   forgot_no_leak db c now email x hlit hne0 hc hem,
   validate_no_leak c now x hlit hc,
   resetpw_no_leak db c now x new_password hlit hc⟩

theorem c8_plaintext_secrecy_witness :
    NoPlain "123456"
      (sign_up [] emptyCache 0 ⟨"a@x.com", "A", "", "", "secret1"⟩ "123456" "r2").1 ∧
    "123456" ∉
      ((verify_email [] emptyCache 0 ⟨"r1", "123456"⟩).2.2).plainStrings :=
  ⟨(c8_plaintext_secrecy [] emptyCache 0 ⟨"a@x.com", "A", "", "", "secret1"⟩
      "r2" "r1" "r1" "b@x.com" "123456" "npw" (by decide) (by decide) (by decide)
      (by decide) (by decide)).1.1,
   (c8_plaintext_secrecy [] emptyCache 0 ⟨"a@x.com", "A", "", "", "secret1"⟩
      "r2" "r1" "r1" "b@x.com" "123456" "npw" (by decide) (by decide) (by decide)
      (by decide) (by decide)).2.1.2⟩

end EventSphere
